import Mathlib

/-
Verification of mbgl paint property binders
(src/mbgl/style/paint_property_binder.hpp).

The C++ source is templated over a property type T with an overloaded
attribute encoder; here each binder operation is parameterized by an
explicit encoder function of type T → List ℚ (attribute channels are
modelled as rationals: every value the encoder produces is a small
integer, exactly representable in a float). Zoom values and
interpolation factors are modelled as real numbers.
-/

namespace Mbgl

/-- Closed interval of values, as used for zoom brackets and evaluated
composite ranges (mbgl Range with fields min and max). -/
structure Range (T : Type) where
  min : T
  max : T
deriving DecidableEq

/-- Four color components, each nominally a float in the unit interval. -/
structure Color where
  r : ℚ
  g : ℚ
  b : ℚ
  a : ℚ
deriving DecidableEq

/-- Models the C++ conversion static_cast of a float to uint16_t:
truncation toward zero, reduced mod 2^16. For a negative or
out-of-range argument the C++ conversion is undefined behaviour; the
claims only quantify over inputs in [0, 255], where the floor below
agrees with truncation and the mod is the identity. -/
def u16 (x : ℚ) : ℕ :=
  (Int.toNat ⌊x⌋) % 65536

/-- Embeds the scalar overload attributeValue(float v) of
paint_property_binder.hpp: a one-channel array holding v. -/
def attributeValueScalar (v : ℚ) : List ℚ :=
  [v]

/-- Embeds attributeValue(const Color&): packs the four 8-bit color
channels into two floats, upper 8 bits of each float holding one
component. The arithmetic uint16_t * 256 + uint16_t happens in int and
the result (at most 65535) is exactly representable in a float, so the
outer float cast is the identity. -/
def attributeValueColor (color : Color) : List ℚ :=
  [ ((u16 (color.r * 255) * 256 + u16 (color.g * 255) : ℕ) : ℚ),
    ((u16 (color.b * 255) * 256 + u16 (color.a * 255) : ℕ) : ℚ) ]

/-- Embeds zoomInterpolatedAttributeValue(min, max): the loop writes
min's N channels into result[0..N) and max's into result[N..2N), which
on equal-length lists is concatenation. -/
def zoomInterpolatedAttributeValue (lo hi : List ℚ) : List ℚ :=
  lo ++ hi

/-- Modelled from the spec: the shader-side decoding of one packed
color float (section 6 of the spec; the shader source is not under
src/). component_high is floor(f / 256) and component_low is f mod 256,
written for a nonnegative integral f as f - 256 * floor(f / 256). -/
def decodeChannelPair (f : ℚ) : ℤ × ℚ :=
  (⌊f / 256⌋, f - 256 * (⌊f / 256⌋ : ℚ))

/-- Modelled from the spec: util::interpolationFactor (section 4.2;
mbgl/util/interpolate.hpp is not under src/). Linear when the base is
1, exponential otherwise; not clamped. -/
noncomputable def interpolationFactorUtil (base : ℝ) (range : Range ℝ) (currentZoom : ℝ) : ℝ :=
  if base = 1 then
    (currentZoom - range.min) / (range.max - range.min)
  else
    (base ^ (currentZoom - range.min) - 1) / (base ^ (range.max - range.min) - 1)

/-- Modelled from the spec: PossiblyEvaluatedPropertyValue (section 3;
not under src/) is a tagged union over Constant, SourceFunction and
CompositeFunction payloads. The binder code inspects only the tag and
the constant payload, so the function payloads stay abstract. -/
inductive PossiblyEvaluatedPropertyValue (T SF CF : Type) where
  | Constant (value : T)
  | SourceFunction (function : SF)
  | CompositeFunction (function : CF)

/-- Modelled from the spec: isConstant() holds exactly on the Constant
tag. -/
def PossiblyEvaluatedPropertyValue.isConstant {T SF CF : Type} :
    PossiblyEvaluatedPropertyValue T SF CF → Bool
  | .Constant _ => true
  | .SourceFunction _ => false
  | .CompositeFunction _ => false

/-- Modelled from the spec: constant() returns the constant payload
when present. -/
def PossiblyEvaluatedPropertyValue.constant {T SF CF : Type} :
    PossiblyEvaluatedPropertyValue T SF CF → Option T
  | .Constant v => some v
  | .SourceFunction _ => none
  | .CompositeFunction _ => none

/-- Modelled from the spec: constantOr(t) returns the constant payload
when present, otherwise the fallback t. -/
def PossiblyEvaluatedPropertyValue.constantOr {T SF CF : Type}
    (value : PossiblyEvaluatedPropertyValue T SF CF) (t : T) : T :=
  (value.constant).getD t

/-- Modelled from the spec: a SourceFunction evaluates per-feature data
to a value of T; evaluation of a feature may find no usable data
(section 7: missing property data is not an error). The Feature type
stays abstract. -/
structure SourceFunction (T Feature : Type) where
  eval : Feature → Option T

/-- Modelled from the spec: SourceFunction evaluation falls back to the
declared default value when the feature has no usable data. -/
def SourceFunction.evaluate {T Feature : Type}
    (function : SourceFunction T Feature) (feature : Feature) (defaultValue : T) : T :=
  (function.eval feature).getD defaultValue

/-- Modelled from the spec: a CompositeFunction (sections 3, 4.5, 6;
not under src/) carries its declared interpolation base, produces a
covering pair (zoom-stop bracket, inner stop bracket) for a build zoom,
and evaluates a feature across an inner stop bracket to a (min, max)
range, with a default value for missing data. IS is the abstract type
of inner stops. -/
structure CompositeFunction (T IS Feature : Type) where
  base : ℝ
  coveringRanges : ℝ → Range ℝ × Range IS
  evaluate : Range IS → Feature → T → Range T

/-- Modelled from the spec: the per-property Statistics aggregate
(paint_property_statistics.hpp is not under src/). The spec describes a
running aggregate accumulated monotonically as each feature is
evaluated; it is modelled as the sequence of recorded values, from
which any concrete aggregate (min, max, ...) is derivable. -/
abbrev Statistics (V : Type) :=
  List V

/-- Modelled from the spec: recording one evaluated value into the
Statistics aggregate. -/
def Statistics.add {V : Type} (statistics : Statistics V) (value : V) : Statistics V :=
  value :: statistics

/-- Result of attributeBinding: either a constant binding (a single
attribute value applied uniformly) or a variable binding referencing an
uploaded vertex buffer with an offset and an attribute size. Vertices
are their attribute-channel lists. -/
inductive AttributeBinding where
  | constantBinding (value : List ℚ)
  | variableBinding (vertexBuffer : List (List ℚ)) (attributeOffset : ℕ) (attributeSize : ℕ)
deriving DecidableEq

/-- Embeds the append loop shared by both populateVertexVector bodies:
for (i = vertexVector.vertexSize(); i < length; ++i)
emplace_back(value), i.e. append copies of value until the vector
reaches the target length (a no-op when it is already long enough). -/
def emplaceUpTo (vertexVector : List (List ℚ)) (value : List ℚ) (length : ℕ) : List (List ℚ) :=
  vertexVector ++ List.replicate (length - vertexVector.length) value

/-- Embeds ConstantPaintPropertyBinder: owns only the constant. -/
structure ConstantPaintPropertyBinder (T : Type) where
  constant : T

/-- Embeds ConstantPaintPropertyBinder::populateVertexVector: a no-op
on both the binder and the statistics. -/
def ConstantPaintPropertyBinder.populateVertexVector {T Feature V : Type}
    (binder : ConstantPaintPropertyBinder T) (_feature : Feature) (_length : ℕ)
    (statistics : Statistics V) :
    ConstantPaintPropertyBinder T × Statistics V :=
  (binder, statistics)

/-- Embeds ConstantPaintPropertyBinder::upload: a no-op. -/
def ConstantPaintPropertyBinder.upload {T : Type}
    (binder : ConstantPaintPropertyBinder T) : ConstantPaintPropertyBinder T :=
  binder

/-- Embeds ConstantPaintPropertyBinder::attributeBinding: encode the
caller's constant if present, else the stored constant, and duplicate
it into the (min, max) pair of a constant binding. -/
def ConstantPaintPropertyBinder.attributeBinding {T SF CF : Type} (encode : T → List ℚ)
    (binder : ConstantPaintPropertyBinder T)
    (currentValue : PossiblyEvaluatedPropertyValue T SF CF) : AttributeBinding :=
  let value := encode (currentValue.constantOr binder.constant)
  AttributeBinding.constantBinding (zoomInterpolatedAttributeValue value value)

/-- Embeds ConstantPaintPropertyBinder::interpolationFactor: always
zero. -/
def ConstantPaintPropertyBinder.interpolationFactor {T : Type}
    (_binder : ConstantPaintPropertyBinder T) (_currentZoom : ℝ) : ℝ :=
  0

/-- Embeds SourceFunctionPaintPropertyBinder: the function, the default
value, the growing vertex vector, and the optional uploaded buffer. -/
structure SourceFunctionPaintPropertyBinder (T Feature : Type) where
  function : SourceFunction T Feature
  defaultValue : T
  vertexVector : List (List ℚ)
  vertexBuffer : Option (List (List ℚ))

/-- Embeds the SourceFunctionPaintPropertyBinder constructor: stores
the function and default; the vertex vector starts empty and no buffer
exists yet. -/
def SourceFunctionPaintPropertyBinder.construct {T Feature : Type}
    (function : SourceFunction T Feature) (defaultValue : T) :
    SourceFunctionPaintPropertyBinder T Feature :=
  ⟨function, defaultValue, [], none⟩

/-- Embeds SourceFunctionPaintPropertyBinder::populateVertexVector:
evaluate once with default fallback, record into statistics, encode,
and append copies until the target length is reached. -/
def SourceFunctionPaintPropertyBinder.populateVertexVector {T Feature : Type}
    (encode : T → List ℚ) (binder : SourceFunctionPaintPropertyBinder T Feature)
    (feature : Feature) (length : ℕ) (statistics : Statistics T) :
    SourceFunctionPaintPropertyBinder T Feature × Statistics T :=
  let evaluated := binder.function.evaluate feature binder.defaultValue
  let statistics1 := statistics.add evaluated
  let value := encode evaluated
  ({ binder with vertexVector := emplaceUpTo binder.vertexVector value length }, statistics1)

/-- Embeds SourceFunctionPaintPropertyBinder::upload: move the vertex
vector into the created buffer (the moved-from vector is left
empty). -/
def SourceFunctionPaintPropertyBinder.upload {T Feature : Type}
    (binder : SourceFunctionPaintPropertyBinder T Feature) :
    SourceFunctionPaintPropertyBinder T Feature :=
  { binder with vertexVector := [], vertexBuffer := some binder.vertexVector }

/-- Embeds SourceFunctionPaintPropertyBinder::attributeBinding: a
constant current value short-circuits to a duplicated constant binding;
otherwise the optional vertex buffer is dereferenced (modelled by
Option.map: the C++ dereference of an empty optional is undefined) and
bound at the base attribute width baseDimensions. -/
def SourceFunctionPaintPropertyBinder.attributeBinding {T Feature SF CF : Type}
    (encode : T → List ℚ) (baseDimensions : ℕ)
    (binder : SourceFunctionPaintPropertyBinder T Feature)
    (currentValue : PossiblyEvaluatedPropertyValue T SF CF) : Option AttributeBinding :=
  if currentValue.isConstant then
    (currentValue.constant).map fun t =>
      let value := encode t
      AttributeBinding.constantBinding (zoomInterpolatedAttributeValue value value)
  else
    (binder.vertexBuffer).map fun buffer =>
      AttributeBinding.variableBinding buffer 0 baseDimensions

/-- Embeds SourceFunctionPaintPropertyBinder::interpolationFactor:
always zero. -/
def SourceFunctionPaintPropertyBinder.interpolationFactor {T Feature : Type}
    (_binder : SourceFunctionPaintPropertyBinder T Feature) (_currentZoom : ℝ) : ℝ :=
  0

/-- Embeds CompositeFunctionPaintPropertyBinder: the function, the
default value, the covering ranges computed once at construction, the
growing vertex vector, and the optional uploaded buffer. -/
structure CompositeFunctionPaintPropertyBinder (T IS Feature : Type) where
  function : CompositeFunction T IS Feature
  defaultValue : T
  coveringRanges : Range ℝ × Range IS
  vertexVector : List (List ℚ)
  vertexBuffer : Option (List (List ℚ))

/-- Embeds the CompositeFunctionPaintPropertyBinder constructor: stores
the function and default and computes coveringRanges from the
construction-time zoom; the vertex vector starts empty and no buffer
exists yet. -/
def CompositeFunctionPaintPropertyBinder.construct {T IS Feature : Type}
    (function : CompositeFunction T IS Feature) (zoom : ℝ) (defaultValue : T) :
    CompositeFunctionPaintPropertyBinder T IS Feature :=
  ⟨function, defaultValue, function.coveringRanges zoom, [], none⟩

/-- Embeds CompositeFunctionPaintPropertyBinder::populateVertexVector:
evaluate the function over the stored inner stop bracket to a (min,
max) range, record the range into statistics, interleave the encoded
ends into the doubled-width value, and append copies until the target
length is reached. -/
def CompositeFunctionPaintPropertyBinder.populateVertexVector {T IS Feature : Type}
    (encode : T → List ℚ) (binder : CompositeFunctionPaintPropertyBinder T IS Feature)
    (feature : Feature) (length : ℕ) (statistics : Statistics (Range T)) :
    CompositeFunctionPaintPropertyBinder T IS Feature × Statistics (Range T) :=
  let range := binder.function.evaluate binder.coveringRanges.2 feature binder.defaultValue
  let statistics1 := statistics.add range
  let value := zoomInterpolatedAttributeValue (encode range.min) (encode range.max)
  ({ binder with vertexVector := emplaceUpTo binder.vertexVector value length }, statistics1)

/-- Embeds CompositeFunctionPaintPropertyBinder::upload: move the
vertex vector into the created buffer. -/
def CompositeFunctionPaintPropertyBinder.upload {T IS Feature : Type}
    (binder : CompositeFunctionPaintPropertyBinder T IS Feature) :
    CompositeFunctionPaintPropertyBinder T IS Feature :=
  { binder with vertexVector := [], vertexBuffer := some binder.vertexVector }

/-- Embeds CompositeFunctionPaintPropertyBinder::attributeBinding: same
constant short-circuit as the source binder; otherwise the buffer is
bound at the full doubled width (the C++ call omits the size argument,
so it defaults to Attribute::Dimensions, twice the base width). -/
def CompositeFunctionPaintPropertyBinder.attributeBinding {T IS Feature SF CF : Type}
    (encode : T → List ℚ) (baseDimensions : ℕ)
    (binder : CompositeFunctionPaintPropertyBinder T IS Feature)
    (currentValue : PossiblyEvaluatedPropertyValue T SF CF) : Option AttributeBinding :=
  if currentValue.isConstant then
    (currentValue.constant).map fun t =>
      let value := encode t
      AttributeBinding.constantBinding (zoomInterpolatedAttributeValue value value)
  else
    (binder.vertexBuffer).map fun buffer =>
      AttributeBinding.variableBinding buffer 0 (baseDimensions * 2)

/-- Embeds CompositeFunctionPaintPropertyBinder::interpolationFactor:
delegates to util::interpolationFactor with a hard-coded base of 1.0
and the construction-time zoom bracket std::get<0>(coveringRanges). -/
noncomputable def CompositeFunctionPaintPropertyBinder.interpolationFactor {T IS Feature : Type}
    (binder : CompositeFunctionPaintPropertyBinder T IS Feature) (currentZoom : ℝ) : ℝ :=
  interpolationFactorUtil 1 binder.coveringRanges.1 currentZoom

/-- Sequence of populateVertexVector calls on a source binder, one call
per (feature, target length) pair, threading the statistics. -/
def SourceFunctionPaintPropertyBinder.populateSeq {T Feature : Type}
    (encode : T → List ℚ) (binder : SourceFunctionPaintPropertyBinder T Feature)
    (calls : List (Feature × ℕ)) (statistics : Statistics T) :
    SourceFunctionPaintPropertyBinder T Feature × Statistics T :=
  calls.foldl (fun s c => SourceFunctionPaintPropertyBinder.populateVertexVector encode s.1 c.1 c.2 s.2)
    (binder, statistics)

/-- Sequence of populateVertexVector calls on a composite binder, one
call per (feature, target length) pair, threading the statistics. -/
def CompositeFunctionPaintPropertyBinder.populateSeq {T IS Feature : Type}
    (encode : T → List ℚ) (binder : CompositeFunctionPaintPropertyBinder T IS Feature)
    (calls : List (Feature × ℕ)) (statistics : Statistics (Range T)) :
    CompositeFunctionPaintPropertyBinder T IS Feature × Statistics (Range T) :=
  calls.foldl (fun s c => CompositeFunctionPaintPropertyBinder.populateVertexVector encode s.1 c.1 c.2 s.2)
    (binder, statistics)

/-- Concrete source function for instantiations: every feature
evaluates to 7. -/
def sfSome : SourceFunction ℚ Unit :=
  ⟨fun _ => some 7⟩

/-- Concrete source function for instantiations: no feature has usable
data, so evaluation always falls back to the default. -/
def sfNone : SourceFunction ℚ Unit :=
  ⟨fun _ => none⟩

/-- Concrete composite function for instantiations: declared
interpolation base 2, covering zoom bracket [10, 12] at every build
zoom, evaluating to the range (default, default + 1). -/
noncomputable def cfEx : CompositeFunction ℚ Unit Unit where
  base := 2
  coveringRanges := fun _ => (⟨10, 12⟩, ⟨(), ()⟩)
  evaluate := fun _ _ d => ⟨d, d + 1⟩

/-- Concrete source binder for instantiations: two vertices already
populated, nothing uploaded. -/
def sBinder2 : SourceFunctionPaintPropertyBinder ℚ Unit :=
  ⟨sfSome, 0, [[1], [2]], none⟩

/-- Concrete composite binder for instantiations: two doubled-width
vertices already populated, nothing uploaded. -/
noncomputable def cBinder2 : CompositeFunctionPaintPropertyBinder ℚ Unit Unit :=
  ⟨cfEx, 0, (⟨10, 12⟩, ⟨(), ()⟩), [[1, 1], [2, 2]], none⟩

/- Theorems. -/

/-- The uint16_t cast is the identity (as an integer) on the scaled
value of a unit-interval component. -/
theorem u16_unit {c : ℚ} (h0 : 0 ≤ c) (h1 : c ≤ 1) :
    ((u16 (c * 255) : ℕ) : ℤ) = ⌊c * 255⌋ := by
  have hf0 : 0 ≤ ⌊c * 255⌋ := Int.floor_nonneg.mpr (by positivity)
  have hf1 : ⌊c * 255⌋ ≤ 255 := by
    have hle : c * 255 ≤ (255 : ℚ) := by nlinarith
    have := Int.floor_mono hle
    simpa using this
  unfold u16
  have hmod : Int.toNat ⌊c * 255⌋ % 65536 = Int.toNat ⌊c * 255⌋ :=
    Nat.mod_eq_of_lt (by omega)
  rw [hmod, Int.toNat_of_nonneg hf0]

/-- Helper: the color encoder computes exactly the packing formulas of
the spec on unit-interval components. -/
theorem attributeValueColor_spec (c : Color)
    (hr0 : 0 ≤ c.r) (hr1 : c.r ≤ 1) (hg0 : 0 ≤ c.g) (hg1 : c.g ≤ 1)
    (hb0 : 0 ≤ c.b) (hb1 : c.b ≤ 1) (ha0 : 0 ≤ c.a) (ha1 : c.a ≤ 1) :
    attributeValueColor c =
      [ ((⌊c.r * 255⌋ * 256 + ⌊c.g * 255⌋ : ℤ) : ℚ),
        ((⌊c.b * 255⌋ * 256 + ⌊c.a * 255⌋ : ℤ) : ℚ) ] := by
  unfold attributeValueColor
  have er := u16_unit hr0 hr1
  have eg := u16_unit hg0 hg1
  have eb := u16_unit hb0 hb1
  have ea := u16_unit ha0 ha1
  have h1 : ((u16 (c.r * 255) * 256 + u16 (c.g * 255) : ℕ) : ℚ) =
      ((⌊c.r * 255⌋ * 256 + ⌊c.g * 255⌋ : ℤ) : ℚ) := by
    push_cast [← er, ← eg]
    ring
  have h2 : ((u16 (c.b * 255) * 256 + u16 (c.a * 255) : ℕ) : ℚ) =
      ((⌊c.b * 255⌋ * 256 + ⌊c.a * 255⌋ : ℤ) : ℚ) := by
    push_cast [← eb, ← ea]
    ring
  rw [h1, h2]

/-- Helper: floor of a scaled unit-interval component lies in
[0, 255]. -/
theorem floor_scaled_bounds {c : ℚ} (h0 : 0 ≤ c) (h1 : c ≤ 1) :
    0 ≤ ⌊c * 255⌋ ∧ ⌊c * 255⌋ ≤ 255 := by
  refine ⟨Int.floor_nonneg.mpr (by positivity), ?_⟩
  have hle : c * 255 ≤ (255 : ℚ) := by nlinarith
  simpa using Int.floor_mono hle

/-- Helper: decoding a packed float of the form hi * 256 + lo with lo
in [0, 256) recovers (hi, lo). -/
theorem decodeChannelPair_pack (R G : ℤ) (hG0 : 0 ≤ G) (hG1 : G < 256) :
    decodeChannelPair (((R * 256 + G : ℤ) : ℚ)) = (R, (G : ℚ)) := by
  have hdiv : ((R * 256 + G : ℤ) : ℚ) / 256 = (R : ℚ) + (G : ℚ) / 256 := by
    push_cast
    ring
  have hzero : ⌊(G : ℚ) / 256⌋ = 0 := by
    rw [Int.floor_eq_zero_iff]
    constructor
    · positivity
    · rw [div_lt_one (by norm_num)]
      exact_mod_cast hG1
  have hfl : ⌊((R * 256 + G : ℤ) : ℚ) / 256⌋ = R := by
    rw [hdiv, Int.floor_int_add, hzero, add_zero]
  unfold decodeChannelPair
  rw [hfl]
  refine Prod.ext rfl ?_
  push_cast
  ring

/-- C2 counterexample: the encoder does not map color
(0.5, 0.25, 0.75, 1.0) to the pair (32575, 48896); its second float is
191 * 256 + 255 = 49151, not 48896. -/
theorem attributeValueColor_scenario_cex :
    attributeValueColor ⟨1/2, 1/4, 3/4, 1⟩ ≠ [32575, 48896] := by
  intro h
  have heq : attributeValueColor ⟨1/2, 1/4, 3/4, 1⟩ = [32575, 49151] := by
    norm_num [attributeValueColor, u16]
    simp
    norm_num
  rw [heq] at h
  norm_num at h

/-- C2 (amended): encoding the color with components
(0.5, 0.25, 0.75, 1.0) yields f0 = 127 * 256 + 63 = 32575 and
f1 = 191 * 256 + 255 = 49151. -/
theorem attributeValueColor_scenario :
    attributeValueColor ⟨1/2, 1/4, 3/4, 1⟩ = [32575, 49151] := by
  norm_num [attributeValueColor, u16]
  simp
  norm_num

/-- C4: on unit-interval components the encoder returns exactly
f0 = floor(r*255)*256 + floor(g*255) and
f1 = floor(b*255)*256 + floor(a*255), each scaled component truncated
to an integer before the multiplication by 256. -/
theorem attributeValueColor_packing (c : Color)
    (hr0 : 0 ≤ c.r) (hr1 : c.r ≤ 1) (hg0 : 0 ≤ c.g) (hg1 : c.g ≤ 1)
    (hb0 : 0 ≤ c.b) (hb1 : c.b ≤ 1) (ha0 : 0 ≤ c.a) (ha1 : c.a ≤ 1) :
    attributeValueColor c =
      [ ((⌊c.r * 255⌋ * 256 + ⌊c.g * 255⌋ : ℤ) : ℚ),
        ((⌊c.b * 255⌋ * 256 + ⌊c.a * 255⌋ : ℤ) : ℚ) ] :=
  attributeValueColor_spec c hr0 hr1 hg0 hg1 hb0 hb1 ha0 ha1

/-- C4 witness: the packing equation instantiated at the color
(0.5, 0.25, 0.75, 1.0). -/
theorem attributeValueColor_packing_witness :
    attributeValueColor ⟨1/2, 1/4, 3/4, 1⟩ =
      [ ((⌊(1/2 : ℚ) * 255⌋ * 256 + ⌊(1/4 : ℚ) * 255⌋ : ℤ) : ℚ),
        ((⌊(3/4 : ℚ) * 255⌋ * 256 + ⌊(1 : ℚ) * 255⌋ : ℤ) : ℚ) ] :=
  attributeValueColor_packing ⟨1/2, 1/4, 3/4, 1⟩ (by norm_num) (by norm_num)
    (by norm_num) (by norm_num) (by norm_num) (by norm_num) (by norm_num) (by norm_num)

/-- C3: on unit-interval components, encoding then decoding each packed
float with component_high = floor(f / 256) and component_low = f mod
256 recovers the 8-bit-quantized channel values floor(r*255),
floor(g*255), floor(b*255) and floor(a*255). -/
theorem color_roundtrip (c : Color)
    (hr0 : 0 ≤ c.r) (hr1 : c.r ≤ 1) (hg0 : 0 ≤ c.g) (hg1 : c.g ≤ 1)
    (hb0 : 0 ≤ c.b) (hb1 : c.b ≤ 1) (ha0 : 0 ≤ c.a) (ha1 : c.a ≤ 1) :
    decodeChannelPair ((attributeValueColor c).getD 0 0) =
      (⌊c.r * 255⌋, (⌊c.g * 255⌋ : ℚ)) ∧
    decodeChannelPair ((attributeValueColor c).getD 1 0) =
      (⌊c.b * 255⌋, (⌊c.a * 255⌋ : ℚ)) := by
  have hspec := attributeValueColor_spec c hr0 hr1 hg0 hg1 hb0 hb1 ha0 ha1
  rw [hspec]
  simp only [List.getD_cons_zero, List.getD_cons_succ]
  constructor
  · have hg := floor_scaled_bounds hg0 hg1
    exact decodeChannelPair_pack _ _ hg.1 (by omega)
  · have ha := floor_scaled_bounds ha0 ha1
    exact decodeChannelPair_pack _ _ ha.1 (by omega)

/-- C3 witness: the round-trip instantiated at the color
(0.5, 0.25, 0.75, 1.0), recovering channels (127, 63, 191, 255). -/
theorem color_roundtrip_witness :
    decodeChannelPair ((attributeValueColor ⟨1/2, 1/4, 3/4, 1⟩).getD 0 0) = (127, (63 : ℚ)) ∧
    decodeChannelPair ((attributeValueColor ⟨1/2, 1/4, 3/4, 1⟩).getD 1 0) = (191, (255 : ℚ)) := by
  have h := color_roundtrip ⟨1/2, 1/4, 3/4, 1⟩ (by norm_num) (by norm_num)
    (by norm_num) (by norm_num) (by norm_num) (by norm_num) (by norm_num) (by norm_num)
  constructor
  · rw [h.1]
    norm_num [Prod.ext_iff]
  · rw [h.2]
    norm_num [Prod.ext_iff]

/-- C1 counterexample: a composite binder built from a function with
declared interpolation base 2 over the zoom bracket [10, 12] does not
compute the interpolation factor of the Interpolation Math contract
with that declared base: at zoom 11 the binder returns the linear
factor 1/2 while the declared-base factor is 1/3, because the code
passes the literal base 1.0f. -/
theorem composite_interpolationFactor_declared_base_cex :
    ¬ ((CompositeFunctionPaintPropertyBinder.construct cfEx 11 (0 : ℚ)).interpolationFactor 11 =
        interpolationFactorUtil cfEx.base ((cfEx.coveringRanges 11).1) 11) := by
  have hL : (CompositeFunctionPaintPropertyBinder.construct cfEx 11 (0 : ℚ)).interpolationFactor 11 =
      1 / 2 := by
    simp [CompositeFunctionPaintPropertyBinder.construct,
      CompositeFunctionPaintPropertyBinder.interpolationFactor, cfEx, interpolationFactorUtil]
    norm_num
  have hR : interpolationFactorUtil cfEx.base ((cfEx.coveringRanges 11).1) 11 = 1 / 3 := by
    simp only [cfEx, interpolationFactorUtil]
    rw [if_neg (by norm_num : ¬ ((2 : ℝ) = 1))]
    rw [show ((11 : ℝ) - 10) = 1 by norm_num, show ((12 : ℝ) - 10) = 2 by norm_num]
    rw [Real.rpow_one]
    rw [show (2 : ℝ) ^ (2 : ℝ) = 2 ^ ((2 : ℕ) : ℝ) by norm_num, Real.rpow_natCast]
    norm_num
  rw [hL, hR]
  norm_num

/-- C1 (amended): a composite binder's interpolationFactor(currentZoom)
computes the Interpolation Math factor with a hard-coded base of 1.0
(linear, regardless of the declared interpolation base) and the zoom
bracket computed once from the construction-time zoom; the bracket is
fixed at construction and preserved by population and upload. -/
theorem composite_interpolationFactor_base_one {T IS Feature : Type}
    (function : CompositeFunction T IS Feature) (zoom currentZoom : ℝ) (defaultValue : T)
    (binder : CompositeFunctionPaintPropertyBinder T IS Feature)
    (encode : T → List ℚ) (feature : Feature) (length : ℕ)
    (statistics : Statistics (Range T)) :
    (CompositeFunctionPaintPropertyBinder.construct function zoom defaultValue).coveringRanges =
      function.coveringRanges zoom ∧
    binder.interpolationFactor currentZoom =
      interpolationFactorUtil 1 binder.coveringRanges.1 currentZoom ∧
    ((binder.populateVertexVector encode feature length statistics).1).coveringRanges =
      binder.coveringRanges ∧
    (binder.upload).coveringRanges = binder.coveringRanges :=
  ⟨rfl, rfl, rfl, rfl⟩

/-- C7: a Constant binder's interpolationFactor and a Source-Function
binder's interpolationFactor are 0 at every zoom, and the Constant
binder's attributeBinding is a constant binding duplicating the
encoding of the caller-supplied constant when present, else of the
stored constant. -/
theorem constant_and_source_no_zoom_dependency {T SF CF Feature : Type}
    (encode : T → List ℚ) (cbinder : ConstantPaintPropertyBinder T)
    (sbinder : SourceFunctionPaintPropertyBinder T Feature)
    (currentValue : PossiblyEvaluatedPropertyValue T SF CF) (t : T) (z z2 : ℝ) :
    cbinder.interpolationFactor z = 0 ∧
    sbinder.interpolationFactor z2 = 0 ∧
    cbinder.attributeBinding encode currentValue =
      AttributeBinding.constantBinding
        (zoomInterpolatedAttributeValue (encode (currentValue.constantOr cbinder.constant))
          (encode (currentValue.constantOr cbinder.constant))) ∧
    cbinder.attributeBinding encode
        (PossiblyEvaluatedPropertyValue.Constant t : PossiblyEvaluatedPropertyValue T SF CF) =
      AttributeBinding.constantBinding
        (zoomInterpolatedAttributeValue (encode t) (encode t)) ∧
    (currentValue.isConstant = false →
      cbinder.attributeBinding encode currentValue =
        AttributeBinding.constantBinding
          (zoomInterpolatedAttributeValue (encode cbinder.constant) (encode cbinder.constant))) := by
  refine ⟨rfl, rfl, rfl, rfl, ?_⟩
  intro h
  cases currentValue with
  | Constant v => simp [PossiblyEvaluatedPropertyValue.isConstant] at h
  | SourceFunction f => rfl
  | CompositeFunction f => rfl

/-- C7 witness: the Constant and Source binder guarantees instantiated
at a concrete binder pair, with a non-constant current value forcing
the stored constant. -/
theorem constant_and_source_no_zoom_dependency_witness :
    (ConstantPaintPropertyBinder.mk (5 : ℚ)).interpolationFactor 3 = 0 ∧
    sBinder2.interpolationFactor 4 = 0 ∧
    (ConstantPaintPropertyBinder.mk (5 : ℚ)).attributeBinding attributeValueScalar
        (PossiblyEvaluatedPropertyValue.SourceFunction () : PossiblyEvaluatedPropertyValue ℚ Unit Unit) =
      AttributeBinding.constantBinding
        (zoomInterpolatedAttributeValue (attributeValueScalar 5) (attributeValueScalar 5)) := by
  have h := constant_and_source_no_zoom_dependency
    attributeValueScalar (ConstantPaintPropertyBinder.mk (5 : ℚ)) sBinder2
    (PossiblyEvaluatedPropertyValue.SourceFunction () : PossiblyEvaluatedPropertyValue ℚ Unit Unit) 5 3 4
  exact ⟨h.1, h.2.1, h.2.2.2.2 rfl⟩

/-- C5: for Source and Composite binders, a constant current value
makes attributeBinding return a duplicated-constant binding of the
encoded constant (no buffer reference); a non-constant current value
makes it return a buffer-backed binding referencing the uploaded
buffer. -/
theorem override_short_circuit {T IS Feature SF CF : Type}
    (encode : T → List ℚ) (baseDimensions : ℕ)
    (sbinder : SourceFunctionPaintPropertyBinder T Feature)
    (cbinder : CompositeFunctionPaintPropertyBinder T IS Feature) (t : T)
    (currentValue currentValue2 : PossiblyEvaluatedPropertyValue T SF CF)
    (buffer buffer2 : List (List ℚ)) :
    sbinder.attributeBinding encode baseDimensions
        (PossiblyEvaluatedPropertyValue.Constant t : PossiblyEvaluatedPropertyValue T SF CF) =
      some (AttributeBinding.constantBinding
        (zoomInterpolatedAttributeValue (encode t) (encode t))) ∧
    (currentValue.isConstant = false → sbinder.vertexBuffer = some buffer →
      sbinder.attributeBinding encode baseDimensions currentValue =
        some (AttributeBinding.variableBinding buffer 0 baseDimensions)) ∧
    cbinder.attributeBinding encode baseDimensions
        (PossiblyEvaluatedPropertyValue.Constant t : PossiblyEvaluatedPropertyValue T SF CF) =
      some (AttributeBinding.constantBinding
        (zoomInterpolatedAttributeValue (encode t) (encode t))) ∧
    (currentValue2.isConstant = false → cbinder.vertexBuffer = some buffer2 →
      cbinder.attributeBinding encode baseDimensions currentValue2 =
        some (AttributeBinding.variableBinding buffer2 0 (baseDimensions * 2))) := by
  refine ⟨rfl, ?_, rfl, ?_⟩
  · intro h hbuf
    simp [SourceFunctionPaintPropertyBinder.attributeBinding, h, hbuf]
  · intro h hbuf
    simp [CompositeFunctionPaintPropertyBinder.attributeBinding, h, hbuf]

/-- C5 witness: the short-circuit and buffer cases instantiated at
uploaded two-vertex source and composite binders. -/
theorem override_short_circuit_witness :
    (sBinder2.upload).attributeBinding attributeValueScalar 1
        (PossiblyEvaluatedPropertyValue.Constant 9 : PossiblyEvaluatedPropertyValue ℚ Unit Unit) =
      some (AttributeBinding.constantBinding
        (zoomInterpolatedAttributeValue (attributeValueScalar 9) (attributeValueScalar 9))) ∧
    (sBinder2.upload).attributeBinding attributeValueScalar 1
        (PossiblyEvaluatedPropertyValue.SourceFunction () : PossiblyEvaluatedPropertyValue ℚ Unit Unit) =
      some (AttributeBinding.variableBinding [[1], [2]] 0 1) ∧
    (cBinder2.upload).attributeBinding attributeValueScalar 1
        (PossiblyEvaluatedPropertyValue.Constant 9 : PossiblyEvaluatedPropertyValue ℚ Unit Unit) =
      some (AttributeBinding.constantBinding
        (zoomInterpolatedAttributeValue (attributeValueScalar 9) (attributeValueScalar 9))) ∧
    (cBinder2.upload).attributeBinding attributeValueScalar 1
        (PossiblyEvaluatedPropertyValue.SourceFunction () : PossiblyEvaluatedPropertyValue ℚ Unit Unit) =
      some (AttributeBinding.variableBinding [[1, 1], [2, 2]] 0 2) := by
  have h := override_short_circuit attributeValueScalar 1 (sBinder2.upload) (cBinder2.upload) (9 : ℚ)
    (PossiblyEvaluatedPropertyValue.SourceFunction () : PossiblyEvaluatedPropertyValue ℚ Unit Unit)
    (PossiblyEvaluatedPropertyValue.SourceFunction () : PossiblyEvaluatedPropertyValue ℚ Unit Unit)
    [[1], [2]] [[1, 1], [2, 2]]
  refine ⟨h.1, h.2.1 rfl rfl, h.2.2.1, ?_⟩
  simpa using h.2.2.2 rfl rfl

/-- C10: with a non-constant current value, attributeBinding
dereferences the optional vertex buffer: after upload the result is
defined and references the frozen vertex sequence, while before upload
(no buffer) the buffer-backed branch has nothing to reference and the
dereference is undefined (modelled as none). -/
theorem buffer_deref_requires_upload {T IS Feature SF CF : Type}
    (encode : T → List ℚ) (baseDimensions : ℕ)
    (sbinder : SourceFunctionPaintPropertyBinder T Feature)
    (cbinder : CompositeFunctionPaintPropertyBinder T IS Feature)
    (currentValue currentValue2 : PossiblyEvaluatedPropertyValue T SF CF) :
    (currentValue.isConstant = false →
      (sbinder.upload).attributeBinding encode baseDimensions currentValue =
        some (AttributeBinding.variableBinding sbinder.vertexVector 0 baseDimensions) ∧
      (sbinder.vertexBuffer = none →
        sbinder.attributeBinding encode baseDimensions currentValue = none)) ∧
    (currentValue2.isConstant = false →
      (cbinder.upload).attributeBinding encode baseDimensions currentValue2 =
        some (AttributeBinding.variableBinding cbinder.vertexVector 0 (baseDimensions * 2)) ∧
      (cbinder.vertexBuffer = none →
        cbinder.attributeBinding encode baseDimensions currentValue2 = none)) := by
  constructor
  · intro h
    constructor
    · simp [SourceFunctionPaintPropertyBinder.attributeBinding,
        SourceFunctionPaintPropertyBinder.upload, h]
    · intro hnone
      simp [SourceFunctionPaintPropertyBinder.attributeBinding, h, hnone]
  · intro h
    constructor
    · simp [CompositeFunctionPaintPropertyBinder.attributeBinding,
        CompositeFunctionPaintPropertyBinder.upload, h]
    · intro hnone
      simp [CompositeFunctionPaintPropertyBinder.attributeBinding, h, hnone]

/-- C10 witness: the pre-upload and post-upload buffer dereference
behaviour instantiated at the two-vertex binders, which carry no
buffer until uploaded. -/
theorem buffer_deref_requires_upload_witness :
    (sBinder2.upload).attributeBinding attributeValueScalar 1
        (PossiblyEvaluatedPropertyValue.SourceFunction () : PossiblyEvaluatedPropertyValue ℚ Unit Unit) =
      some (AttributeBinding.variableBinding [[1], [2]] 0 1) ∧
    sBinder2.attributeBinding attributeValueScalar 1
        (PossiblyEvaluatedPropertyValue.SourceFunction () : PossiblyEvaluatedPropertyValue ℚ Unit Unit) =
      none ∧
    (cBinder2.upload).attributeBinding attributeValueScalar 1
        (PossiblyEvaluatedPropertyValue.SourceFunction () : PossiblyEvaluatedPropertyValue ℚ Unit Unit) =
      some (AttributeBinding.variableBinding [[1, 1], [2, 2]] 0 2) ∧
    cBinder2.attributeBinding attributeValueScalar 1
        (PossiblyEvaluatedPropertyValue.SourceFunction () : PossiblyEvaluatedPropertyValue ℚ Unit Unit) =
      none := by
  have h := buffer_deref_requires_upload attributeValueScalar 1 sBinder2 cBinder2
    (PossiblyEvaluatedPropertyValue.SourceFunction () : PossiblyEvaluatedPropertyValue ℚ Unit Unit)
    (PossiblyEvaluatedPropertyValue.SourceFunction () : PossiblyEvaluatedPropertyValue ℚ Unit Unit)
  refine ⟨(h.1 rfl).1, (h.1 rfl).2 rfl, ?_, (h.2 rfl).2 rfl⟩
  simpa using (h.2 rfl).1

/-- Helper: the append loop grows the vertex vector to exactly the
maximum of its current length and the target length. -/
theorem emplaceUpTo_length (vertexVector : List (List ℚ)) (value : List ℚ) (length : ℕ) :
    (emplaceUpTo vertexVector value length).length = max vertexVector.length length := by
  simp only [emplaceUpTo, List.length_append, List.length_replicate]
  omega

/-- Helper: the append loop leaves the existing vertices untouched. -/
theorem emplaceUpTo_take (vertexVector : List (List ℚ)) (value : List ℚ) (length : ℕ) :
    (emplaceUpTo vertexVector value length).take vertexVector.length = vertexVector := by
  unfold emplaceUpTo
  exact List.take_left vertexVector _

/-- Helper: a source binder's populateVertexVector rewrites the vertex
vector by the append loop on the encoded evaluated value. -/
theorem source_populate_vertexVector {T Feature : Type} (encode : T → List ℚ)
    (binder : SourceFunctionPaintPropertyBinder T Feature) (feature : Feature)
    (length : ℕ) (statistics : Statistics T) :
    ((binder.populateVertexVector encode feature length statistics).1).vertexVector =
      emplaceUpTo binder.vertexVector
        (encode (binder.function.evaluate feature binder.defaultValue)) length :=
  rfl

/-- Helper: a composite binder's populateVertexVector rewrites the
vertex vector by the append loop on the interleaved encoded range. -/
theorem composite_populate_vertexVector {T IS Feature : Type} (encode : T → List ℚ)
    (binder : CompositeFunctionPaintPropertyBinder T IS Feature) (feature : Feature)
    (length : ℕ) (statistics : Statistics (Range T)) :
    ((binder.populateVertexVector encode feature length statistics).1).vertexVector =
      emplaceUpTo binder.vertexVector
        (zoomInterpolatedAttributeValue
          (encode (binder.function.evaluate binder.coveringRanges.2 feature binder.defaultValue).min)
          (encode (binder.function.evaluate binder.coveringRanges.2 feature binder.defaultValue).max))
        length :=
  rfl

/-- Helper: over a whole sequence of source populate calls the vertex
length is the running maximum of the target lengths and the initial
vertices keep their values. -/
theorem source_populateSeq_facts {T Feature : Type} (encode : T → List ℚ)
    (calls : List (Feature × ℕ)) :
    ∀ (binder : SourceFunctionPaintPropertyBinder T Feature) (statistics : Statistics T),
      ((binder.populateSeq encode calls statistics).1).vertexVector.length =
        calls.foldl (fun n c => max n c.2) binder.vertexVector.length ∧
      ((binder.populateSeq encode calls statistics).1).vertexVector.take
          binder.vertexVector.length = binder.vertexVector := by
  induction calls with
  | nil =>
      intro binder statistics
      exact ⟨rfl, List.take_length binder.vertexVector⟩
  | cons c cs ih =>
      intro binder statistics
      have hstep :
          binder.populateSeq encode (c :: cs) statistics =
            SourceFunctionPaintPropertyBinder.populateSeq encode
              (binder.populateVertexVector encode c.1 c.2 statistics).1 cs
              (binder.populateVertexVector encode c.1 c.2 statistics).2 := rfl
      have hvv := source_populate_vertexVector encode binder c.1 c.2 statistics
      have hlen :
          ((binder.populateVertexVector encode c.1 c.2 statistics).1).vertexVector.length =
            max binder.vertexVector.length c.2 := by
        rw [hvv, emplaceUpTo_length]
      have hle : binder.vertexVector.length ≤
          ((binder.populateVertexVector encode c.1 c.2 statistics).1).vertexVector.length := by
        rw [hlen]
        exact Nat.le_max_left _ _
      have hIH := ih (binder.populateVertexVector encode c.1 c.2 statistics).1
        (binder.populateVertexVector encode c.1 c.2 statistics).2
      constructor
      · rw [hstep, hIH.1, hlen]
        rfl
      · rw [hstep]
        calc ((SourceFunctionPaintPropertyBinder.populateSeq encode
                (binder.populateVertexVector encode c.1 c.2 statistics).1 cs
                (binder.populateVertexVector encode c.1 c.2 statistics).2).1).vertexVector.take
              binder.vertexVector.length
            = (((SourceFunctionPaintPropertyBinder.populateSeq encode
                  (binder.populateVertexVector encode c.1 c.2 statistics).1 cs
                  (binder.populateVertexVector encode c.1 c.2 statistics).2).1).vertexVector.take
                ((binder.populateVertexVector encode c.1 c.2 statistics).1).vertexVector.length).take
                binder.vertexVector.length := by
              rw [List.take_take, Nat.min_eq_left hle]
          _ = (((binder.populateVertexVector encode c.1 c.2 statistics).1).vertexVector).take
                binder.vertexVector.length := by
              rw [hIH.2]
          _ = binder.vertexVector := by
              rw [hvv, emplaceUpTo_take]

/-- Helper: over a whole sequence of composite populate calls the
vertex length is the running maximum of the target lengths and the
initial vertices keep their values. -/
theorem composite_populateSeq_facts {T IS Feature : Type} (encode : T → List ℚ)
    (calls : List (Feature × ℕ)) :
    ∀ (binder : CompositeFunctionPaintPropertyBinder T IS Feature)
      (statistics : Statistics (Range T)),
      ((binder.populateSeq encode calls statistics).1).vertexVector.length =
        calls.foldl (fun n c => max n c.2) binder.vertexVector.length ∧
      ((binder.populateSeq encode calls statistics).1).vertexVector.take
          binder.vertexVector.length = binder.vertexVector := by
  induction calls with
  | nil =>
      intro binder statistics
      exact ⟨rfl, List.take_length binder.vertexVector⟩
  | cons c cs ih =>
      intro binder statistics
      have hstep :
          binder.populateSeq encode (c :: cs) statistics =
            CompositeFunctionPaintPropertyBinder.populateSeq encode
              (binder.populateVertexVector encode c.1 c.2 statistics).1 cs
              (binder.populateVertexVector encode c.1 c.2 statistics).2 := rfl
      have hvv := composite_populate_vertexVector encode binder c.1 c.2 statistics
      have hlen :
          ((binder.populateVertexVector encode c.1 c.2 statistics).1).vertexVector.length =
            max binder.vertexVector.length c.2 := by
        rw [hvv, emplaceUpTo_length]
      have hle : binder.vertexVector.length ≤
          ((binder.populateVertexVector encode c.1 c.2 statistics).1).vertexVector.length := by
        rw [hlen]
        exact Nat.le_max_left _ _
      have hIH := ih (binder.populateVertexVector encode c.1 c.2 statistics).1
        (binder.populateVertexVector encode c.1 c.2 statistics).2
      constructor
      · rw [hstep, hIH.1, hlen]
        rfl
      · rw [hstep]
        calc ((CompositeFunctionPaintPropertyBinder.populateSeq encode
                (binder.populateVertexVector encode c.1 c.2 statistics).1 cs
                (binder.populateVertexVector encode c.1 c.2 statistics).2).1).vertexVector.take
              binder.vertexVector.length
            = (((CompositeFunctionPaintPropertyBinder.populateSeq encode
                  (binder.populateVertexVector encode c.1 c.2 statistics).1 cs
                  (binder.populateVertexVector encode c.1 c.2 statistics).2).1).vertexVector.take
                ((binder.populateVertexVector encode c.1 c.2 statistics).1).vertexVector.length).take
                binder.vertexVector.length := by
              rw [List.take_take, Nat.min_eq_left hle]
          _ = (((binder.populateVertexVector encode c.1 c.2 statistics).1).vertexVector).take
                binder.vertexVector.length := by
              rw [hIH.2]
          _ = binder.vertexVector := by
              rw [hvv, emplaceUpTo_take]

/-- C6: for Source and Composite binders, one populate call grows the
vertex-sequence length to the maximum of the current length and the
target length (so the length never decreases) and keeps the values of
the vertices appended by earlier calls; over any sequence of populate
calls the length equals the running maximum of the target lengths seen
so far. -/
theorem populate_length_max_monotone {T IS Feature : Type} (encode : T → List ℚ)
    (sbinder : SourceFunctionPaintPropertyBinder T Feature)
    (cbinder : CompositeFunctionPaintPropertyBinder T IS Feature)
    (feature : Feature) (length : ℕ) (statistics : Statistics T)
    (statistics2 : Statistics (Range T)) (calls : List (Feature × ℕ)) :
    ((sbinder.populateVertexVector encode feature length statistics).1).vertexVector.length =
      max sbinder.vertexVector.length length ∧
    sbinder.vertexVector.length ≤
      ((sbinder.populateVertexVector encode feature length statistics).1).vertexVector.length ∧
    ((sbinder.populateVertexVector encode feature length statistics).1).vertexVector.take
      sbinder.vertexVector.length = sbinder.vertexVector ∧
    ((sbinder.populateSeq encode calls statistics).1).vertexVector.length =
      calls.foldl (fun n c => max n c.2) sbinder.vertexVector.length ∧
    ((sbinder.populateSeq encode calls statistics).1).vertexVector.take
      sbinder.vertexVector.length = sbinder.vertexVector ∧
    ((cbinder.populateVertexVector encode feature length statistics2).1).vertexVector.length =
      max cbinder.vertexVector.length length ∧
    cbinder.vertexVector.length ≤
      ((cbinder.populateVertexVector encode feature length statistics2).1).vertexVector.length ∧
    ((cbinder.populateVertexVector encode feature length statistics2).1).vertexVector.take
      cbinder.vertexVector.length = cbinder.vertexVector ∧
    ((cbinder.populateSeq encode calls statistics2).1).vertexVector.length =
      calls.foldl (fun n c => max n c.2) cbinder.vertexVector.length ∧
    ((cbinder.populateSeq encode calls statistics2).1).vertexVector.take
      cbinder.vertexVector.length = cbinder.vertexVector := by
  have hs1 : ((sbinder.populateVertexVector encode feature length statistics).1).vertexVector.length =
      max sbinder.vertexVector.length length := by
    rw [source_populate_vertexVector, emplaceUpTo_length]
  have hc1 : ((cbinder.populateVertexVector encode feature length statistics2).1).vertexVector.length =
      max cbinder.vertexVector.length length := by
    rw [composite_populate_vertexVector, emplaceUpTo_length]
  have hsSeq := source_populateSeq_facts encode calls sbinder statistics
  have hcSeq := composite_populateSeq_facts encode calls cbinder statistics2
  refine ⟨hs1, ?_, ?_, hsSeq.1, hsSeq.2, hc1, ?_, ?_, hcSeq.1, hcSeq.2⟩
  · rw [hs1]
    exact Nat.le_max_left _ _
  · rw [source_populate_vertexVector, emplaceUpTo_take]
  · rw [hc1]
    exact Nat.le_max_left _ _
  · rw [composite_populate_vertexVector, emplaceUpTo_take]

/-- C8: a source binder's populateVertexVector records the single
evaluated value (the declared default when the feature has no usable
data) into Statistics and appends copies of its encoding until the
vertex sequence reaches the target length, so every vertex of the
feature receives the same attribute value. -/
theorem source_populate_single_value {T Feature : Type} (encode : T → List ℚ)
    (binder : SourceFunctionPaintPropertyBinder T Feature) (feature : Feature)
    (length : ℕ) (statistics : Statistics T) :
    (binder.populateVertexVector encode feature length statistics).2 =
      statistics.add (binder.function.evaluate feature binder.defaultValue) ∧
    (binder.function.eval feature = none →
      binder.function.evaluate feature binder.defaultValue = binder.defaultValue) ∧
    ((binder.populateVertexVector encode feature length statistics).1).vertexVector =
      binder.vertexVector ++
        List.replicate (length - binder.vertexVector.length)
          (encode (binder.function.evaluate feature binder.defaultValue)) := by
  refine ⟨rfl, ?_, rfl⟩
  intro h
  simp [SourceFunction.evaluate, h]

/-- C8 witness: populating from a source function with no usable
feature data falls back to the default 5 and fills every requested
vertex with its encoding. -/
theorem source_populate_single_value_witness :
    ((SourceFunctionPaintPropertyBinder.construct sfNone (5 : ℚ)).populateVertexVector
        attributeValueScalar () 2 []).2 = [(5 : ℚ)] ∧
    sfNone.evaluate () 5 = 5 ∧
    (((SourceFunctionPaintPropertyBinder.construct sfNone (5 : ℚ)).populateVertexVector
        attributeValueScalar () 2 []).1).vertexVector = [[(5 : ℚ)], [(5 : ℚ)]] := by
  have h := source_populate_single_value attributeValueScalar
    (SourceFunctionPaintPropertyBinder.construct sfNone (5 : ℚ)) () 2 []
  refine ⟨?_, h.2.1 rfl, ?_⟩
  · rw [h.1]
    rfl
  · rw [h.2.2]
    rfl

/-- C9: for Source and Composite binders, a populate call whose target
length does not exceed the current vertex-sequence length appends no
vertices (the binder is unchanged) yet still evaluates the feature and
records the result into the Statistics aggregate. -/
theorem populate_records_even_when_full {T IS Feature : Type} (encode : T → List ℚ)
    (sbinder : SourceFunctionPaintPropertyBinder T Feature)
    (cbinder : CompositeFunctionPaintPropertyBinder T IS Feature)
    (feature : Feature) (length length2 : ℕ) (statistics : Statistics T)
    (statistics2 : Statistics (Range T)) :
    (length ≤ sbinder.vertexVector.length →
      sbinder.populateVertexVector encode feature length statistics =
        (sbinder, statistics.add (sbinder.function.evaluate feature sbinder.defaultValue))) ∧
    (length2 ≤ cbinder.vertexVector.length →
      cbinder.populateVertexVector encode feature length2 statistics2 =
        (cbinder, statistics2.add
          (cbinder.function.evaluate cbinder.coveringRanges.2 feature cbinder.defaultValue))) := by
  constructor
  · intro h
    simp [SourceFunctionPaintPropertyBinder.populateVertexVector, emplaceUpTo,
      Nat.sub_eq_zero_of_le h]
  · intro h
    simp [CompositeFunctionPaintPropertyBinder.populateVertexVector, emplaceUpTo,
      Nat.sub_eq_zero_of_le h]

/-- C9 witness: populating the two-vertex binders with target length 1
leaves both unchanged while still recording 7 (source evaluation) and
the range (0, 1) (composite evaluation) into the statistics. -/
theorem populate_records_even_when_full_witness :
    sBinder2.populateVertexVector attributeValueScalar () 1 [] = (sBinder2, [(7 : ℚ)]) ∧
    cBinder2.populateVertexVector attributeValueScalar () 1 [] =
      (cBinder2, [(⟨0, 1⟩ : Range ℚ)]) := by
  have h := populate_records_even_when_full attributeValueScalar sBinder2 cBinder2 () 1 1 [] []
  constructor
  · exact (h.1 (by norm_num [sBinder2])).trans rfl
  · refine (h.2 (by norm_num [cBinder2])).trans ?_
    simp [cBinder2, cfEx, Statistics.add]

end Mbgl
